import Mathlib

/-!
Verification of the metastore update protocol of `pkg/dataobj/metastore`
(source file `src/unnamed/part_000`, package `metastore`).

The development shallowly embeds:
* the registration-record encoding (`labels.New` with the three reserved
  label names, lines 198-202 and 308-319 of the source),
* the body of the callback passed to `bucket.GetAndReplace`
  (lines 280-327), including the buffer/builder reset discipline,
* the batched replay of an existing metastore object
  (`Updater.readFromExisting`, lines 345-379),
* the per-window retry loop and the cross-window error threading of
  `Updater.Update` (lines 265-342), with the `dskit` backoff state
  machine used by `NewUpdater` (lines 234-239),
* the lazy one-time builder initialisation (`Updater.initBuilder`,
  lines 250-262),
* a two-writer compare-and-replace transition system for the object
  store, and
* the window planner `iterStorePaths`, which is not part of the provided
  sources and is modelled from the specification.

Bytes of a metastore object are abstracted by the sequence of records
they decode to; the builder is abstracted by the sequence of records
appended to it, per the builder interface given in the specification
(append / flush / reset).
-/

namespace Metastore

/-- One label name/value pair, as in `labels.Label` of
`prometheus/model/labels`. -/
structure Label where
  name : String
  value : String
deriving DecidableEq, Repr

/-- Lexicographic (byte-wise) strict order on char lists, matching Go's
built-in string comparison used by `labels.Labels.Less`. -/
def chLt : List Char → List Char → Bool
  | [], [] => false
  | [], _ :: _ => true
  | _ :: _, [] => false
  | a :: as, b :: bs => a < b || (a == b && chLt as bs)

/-- Go string comparison `a < b`. -/
def strLess (a b : String) : Bool := chLt a.data b.data

/-- Model of `labels.New`: collects the given pairs and sorts them by
label name (`Labels.Less` compares names with Go `<`; `sort.Sort` with
that order yields the list in non-decreasing name order). -/
def labelsNew (ls : List Label) : List Label :=
  List.insertionSort (fun a b => strLess b.name a.name = false) ls

/-- Reserved label name `__start__` (source line 199). -/
def labelNameStart : String := "__start__"

/-- Reserved label name `__end__` (source line 200). -/
def labelNameEnd : String := "__end__"

/-- Reserved label name `__path__` (source line 201). -/
def labelNamePath : String := "__path__"

/-- One stream record appended to the builder: its label set and the
single entry line (the source always appends
`Entries: []logproto.Entry{{Line: ""}}`). -/
structure Record where
  labels : List Label
  line : String
deriving DecidableEq, Repr

/-- The registration record built at source lines 308-316: three
reserved labels via `labels.New` — start/end from
`minTimestamp.UnixNano()` / `maxTimestamp.UnixNano()` rendered with
`strconv.FormatInt(·, 10)` (modelled by `toString` on `Int`) plus the
data object path — and a single empty line as payload. -/
def encodeRecord (dataobjPath : String) (minNanos maxNanos : Int) : Record :=
  { labels := labelsNew
      [ { name := labelNameStart, value := toString minNanos }
      , { name := labelNameEnd, value := toString maxNanos }
      , { name := labelNamePath, value := dataobjPath } ]
  , line := "" }

/-- Modelled from the spec (§2, §6): the builder collaborator
(`logsobj.Builder`, whose sources are not under `src/`) is a stateful
columnar encoder abstracted by the list of records appended to it. -/
abbrev Builder := List Record

/-- Builder `Append`: adds one record at the end. -/
def builderAppend (b : Builder) (r : Record) : Builder := b ++ [r]

/-- Builder `Reset`: empties the builder. -/
def builderReset : Builder := []

/-- Builder `Flush`: serialises the buffered records in order; a flushed
object decodes back to exactly those records. -/
def builderFlush (b : Builder) : List Record := b

/-- Decoded content of a metastore object: the records it holds. -/
abbrev Content := List Record

/-- Re-appending an existing stream in `readFromExisting` (source lines
367-370) keeps its labels (`stream.Labels.String()`) and writes a single
empty line as payload. -/
def replayRec (r : Record) : Record := { labels := r.labels, line := "" }

/-- Batch size of the replay read loop: `readFromExisting` reads streams
into a buffer of 100 (source line 350). -/
def replayBatchSize : Nat := 100

/-- Batched read loop of `readFromExisting`, structured on an iteration
bound: each pass takes one batch of at most `replayBatchSize` records,
appends its replayed records to the builder, and continues on the rest.
Every pass consumes at least one record, so `l.length` passes always
suffice. -/
def replayChunkedAux : Nat → Builder → List Record → Builder
  | 0, b, _ => b
  | n + 1, b, l =>
    match l with
    | [] => b
    | _ :: _ => replayChunkedAux n (b ++ (l.take replayBatchSize).map replayRec) (l.drop replayBatchSize)

/-- Model of `readFromExisting` (source lines 345-379): stream the
existing object's records in batches of `replayBatchSize` and append
each one to the builder with its labels and an empty line. -/
def replayChunked (b : Builder) (l : List Record) : Builder :=
  replayChunkedAux l.length b l

/-- With enough passes the batched loop appends exactly the replayed
records. -/
theorem replayChunkedAux_eq (n : Nat) :
    ∀ b l, List.length l ≤ n → replayChunkedAux n b l = b ++ l.map replayRec := by
  induction n with
  | zero =>
    intro b l hl
    rw [Nat.le_zero, List.length_eq_zero] at hl
    subst hl
    simp [replayChunkedAux]
  | succ n ih =>
    intro b l hl
    cases l with
    | nil => simp [replayChunkedAux]
    | cons x xs =>
      show replayChunkedAux n (b ++ ((x :: xs).take replayBatchSize).map replayRec)
          ((x :: xs).drop replayBatchSize) = b ++ (x :: xs).map replayRec
      rw [ih _ _ (by simp [List.length_drop, replayBatchSize] at *; omega)]
      rw [List.append_assoc, ← List.map_append, List.take_append_drop]

/-- The transient state owned by the `Updater`: the shared columnar
builder `m.metastoreBuilder` and the shared byte buffer `m.buf`,
abstracted by the records they hold. -/
structure UpdState where
  builder : Builder
  buf : List Record
deriving DecidableEq, Repr

/-- Body of the callback passed to `bucket.GetAndReplace` (source lines
280-327), on the success path: reset `m.buf` and copy `existing` into it
(`none` models a store miss), reset the builder (line 292), replay the
buffered content if non-empty (lines 294-304), append the new
registration record (lines 308-319), then reset the buffer and flush the
builder into it (lines 321-327). Returns the updated `Updater` state and
the flushed bytes handed to the store. -/
def updateClosure (st : UpdState) (existing : Option Content)
    (dataobjPath : String) (minNanos maxNanos : Int) : UpdState × Content :=
  let buf : List Record := (existing.getD [])
  let b : Builder := builderReset
  let b : Builder := if buf.isEmpty then b else replayChunked b buf
  let b : Builder := builderAppend b (encodeRecord dataobjPath minNanos maxNanos)
  let out : Content := builderFlush b
  (⟨b, out⟩, out)

/-- Replay flattens the batches: feeding a list through the batched read
loop appends exactly the replayed records, in order. -/
theorem replayChunked_eq (b : Builder) (l : List Record) :
    replayChunked b l = b ++ l.map replayRec :=
  replayChunkedAux_eq l.length b l (Nat.le_refl _)

/-- The bytes produced by one callback run are exactly the replayed
existing records followed by the one new registration record, whatever
was left in the builder or the buffer beforehand. -/
theorem updateClosure_out (st : UpdState) (existing : Option Content)
    (p : String) (mn mx : Int) :
    (updateClosure st existing p mn mx).2 =
      (existing.getD []).map replayRec ++ [encodeRecord p mn mx] := by
  cases existing with
  | none => simp [updateClosure, builderReset, builderAppend, builderFlush]
  | some e =>
    cases e with
    | nil => simp [updateClosure, builderReset, builderAppend, builderFlush]
    | cons x xs =>
      simp [updateClosure, builderReset, builderAppend, builderFlush, replayChunked_eq]

/-- The builder after one callback run holds the same records as the
flushed output. -/
theorem updateClosure_builder (st : UpdState) (existing : Option Content)
    (p : String) (mn mx : Int) :
    (updateClosure st existing p mn mx).1.builder =
      (updateClosure st existing p mn mx).2 := rfl

/-- Configuration of a `dskit` backoff: `MinBackoff`, `MaxBackoff` (in
milliseconds; they only affect sleep durations, not control flow) and
`MaxRetries`, whose zero value means "no retry limit". -/
structure BackoffConfig where
  minBackoff : Nat
  maxBackoff : Nat
  maxRetries : Nat
deriving DecidableEq, Repr

/-- State of a `dskit` backoff: its config, whether the context it was
constructed with is cancelled, and the retries performed so far. -/
structure Backoff where
  cfg : BackoffConfig
  ctxCanceled : Bool
  numRetries : Nat
deriving DecidableEq, Repr

/-- Backoff `Ongoing`: true while the backoff's own context is alive and
the retry count has not reached `MaxRetries` (no limit when
`MaxRetries` is zero). -/
def Backoff.ongoing (b : Backoff) : Bool :=
  !b.ctxCanceled && (b.cfg.maxRetries == 0 || Nat.blt b.numRetries b.cfg.maxRetries)

/-- Backoff `Wait`: sleeps and counts one more retry. -/
def Backoff.wait (b : Backoff) : Backoff :=
  { b with numRetries := b.numRetries + 1 }

/-- Backoff `Reset`: zeroes the retry count (source line 278 calls it at
the start of every window). -/
def Backoff.reset (b : Backoff) : Backoff :=
  { b with numRetries := 0 }

/-- The backoff constructed by `NewUpdater` (source lines 234-237):
`MinBackoff` 50ms, `MaxBackoff` 10s, `MaxRetries` left at its zero
value, and — crucially — built over `context.TODO()`, a context that is
never cancelled. -/
def updaterBackoff : Backoff :=
  { cfg := { minBackoff := 50, maxBackoff := 10000, maxRetries := 0 }
  , ctxCanceled := false
  , numRetries := 0 }

/-- Result of one window's retry loop: the updater state, the value of
the shared `err` variable, the backoff state, and whether the loop
exited (`false` means the modelling fuel ran out while the Go loop was
still iterating). -/
structure WinRun where
  st : UpdState
  err : Option String
  backoff : Backoff
  finished : Bool
deriving Repr

/-- One window's retry loop (source lines 279-337). `reads k` is the
store content the `k`-th `GetAndReplace` call presents to the callback;
`attemptErr k` is the error that call returns (`none` = the replace
succeeded). Each iteration checks `backoff.Ongoing`, runs the callback
(which mutates the shared builder/buffer state), assigns the shared
`err`, breaks on `nil`, and otherwise calls `backoff.Wait` and retries.
The Go loop is unbounded, so the model unfolds it up to `fuel`
iterations. -/
def runWindow (reads : Nat → Option Content) (attemptErr : Nat → Option String)
    (p : String) (mn mx : Int) :
    Nat → Nat → UpdState → Option String → Backoff → WinRun
  | 0, _, st, err, b => ⟨st, err, b, false⟩
  | fuel + 1, k, st, err, b =>
    if b.ongoing then
      let r := updateClosure st (reads k) p mn mx
      match attemptErr k with
      | none => ⟨r.1, none, b, true⟩
      | some e => runWindow reads attemptErr p mn mx fuel (k + 1) r.1 (some e) b.wait
    else ⟨st, err, b, true⟩

/-- One full window of `Update` (source lines 277-340): reset the
backoff (line 278), run the retry loop, then reset the builder (line
339) before the next window. -/
def processWindow (reads : Nat → Option Content) (attemptErr : Nat → Option String)
    (p : String) (mn mx : Int) (fuel : Nat) (st : UpdState) (err : Option String)
    (b : Backoff) : WinRun :=
  let r := runWindow reads attemptErr p mn mx fuel 0 st err b.reset
  { r with st := { r.st with builder := builderReset } }

/-- The window loop of `Update` (source lines 277-341): windows are
processed in order, threading the single shared `err` variable, the
backoff and the builder/buffer state; the final `err` value is
returned. Each window is described by its `reads` and `attemptErr`
oracles. Processing stops early only when the fuel runs out inside a
window (second component `false`). -/
def updateWindows (p : String) (mn mx : Int) (fuel : Nat) :
    List ((Nat → Option Content) × (Nat → Option String)) →
    UpdState → Option String → Backoff → WinRun
  | [], st, err, b => ⟨st, err, b, true⟩
  | w :: ws, st, err, b =>
    let r := processWindow w.1 w.2 p mn mx fuel st err b
    if r.finished then updateWindows p mn mx fuel ws r.st r.err r.backoff
    else r

/-- `Updater.Update` (source lines 265-342) after a successful builder
initialisation: `err` starts as `nil`, the backoff is the one built by
`NewUpdater`, and the shared builder/buffer start empty. -/
def updateCall (wins : List ((Nat → Option Content) × (Nat → Option String)))
    (p : String) (mn mx : Int) (fuel : Nat) : WinRun :=
  updateWindows p mn mx fuel wins ⟨builderReset, []⟩ none updaterBackoff

/-- Initialisation state of an `Updater`: whether `builderOnce` has
already run, and whether `m.metastoreBuilder` was actually constructed. -/
structure InitState where
  onceRan : Bool
  builderBuilt : Bool
deriving DecidableEq, Repr

/-- `Updater.initBuilder` (source lines 250-262): `builderOnce.Do` runs
its body only the first time and marks itself done regardless of the
body's outcome; `initErr` is a fresh local on every call, so it reports
a failure only on the call in which the body actually ran.
`newBuilderFails` tells whether `logsobj.NewBuilder` errors. -/
def initBuilder (newBuilderFails : Bool) (s : InitState) : InitState × Option String :=
  if s.onceRan then (s, none)
  else if newBuilderFails then ({ s with onceRan := true }, some "creating metastore builder")
  else ({ onceRan := true, builderBuilt := true }, none)

/-- With `NewUpdater`'s configuration — zero `MaxRetries` and a
never-cancelled `context.TODO()` — `Ongoing` is always true. -/
theorem ongoing_always (b : Backoff) (h1 : b.ctxCanceled = false)
    (h2 : b.cfg.maxRetries = 0) : b.ongoing = true := by
  simp [Backoff.ongoing, h1, h2]

/-- When every attempt fails, the retry loop under `NewUpdater`'s
backoff never exits: whatever the fuel, the loop is still iterating, and
it has performed one further backoff wait per iteration. -/
theorem runWindow_allFail (reads : Nat → Option Content) (attemptErr : Nat → Option String)
    (p : String) (mn mx : Int) (hfail : ∀ j, attemptErr j ≠ none) :
    ∀ fuel k st err b, b.ctxCanceled = false → b.cfg.maxRetries = 0 →
      (runWindow reads attemptErr p mn mx fuel k st err b).finished = false ∧
      (runWindow reads attemptErr p mn mx fuel k st err b).backoff.numRetries =
        b.numRetries + fuel := by
  intro fuel
  induction fuel with
  | zero => intro k st err b h1 h2; simp [runWindow]
  | succ n ih =>
    intro k st err b h1 h2
    have hon : b.ongoing = true := ongoing_always b h1 h2
    cases h : attemptErr k with
    | none => exact absurd h (hfail k)
    | some e =>
      have := ih (k + 1) (updateClosure st (reads k) p mn mx).1 (some e) b.wait h1 h2
      simp only [runWindow, hon, if_true, h] at *
      simpa [Backoff.wait, Nat.add_assoc, Nat.add_comm 1 n] using this

/-- The retry loop only manipulates the backoff through `Wait`, so the
backoff's configuration and context flag are unchanged on exit. -/
theorem runWindow_backoff_flags (reads : Nat → Option Content)
    (attemptErr : Nat → Option String) (p : String) (mn mx : Int) :
    ∀ fuel k st err b,
      (runWindow reads attemptErr p mn mx fuel k st err b).backoff.ctxCanceled =
        b.ctxCanceled ∧
      (runWindow reads attemptErr p mn mx fuel k st err b).backoff.cfg = b.cfg := by
  intro fuel
  induction fuel with
  | zero => intro k st err b; simp [runWindow]
  | succ n ih =>
    intro k st err b
    by_cases hon : b.ongoing = true
    · cases h : attemptErr k with
      | none => simp [runWindow, hon, h]
      | some e =>
        have := ih (k + 1) (updateClosure st (reads k) p mn mx).1 (some e) b.wait
        simpa [runWindow, hon, h, Backoff.wait] using this
    · simp at hon
      simp [runWindow, hon]

/-- Under `NewUpdater`'s backoff the loop can exit only through the
`err == nil` break, so an exited loop always leaves `err` at `nil` —
errors of earlier attempts are overwritten. -/
theorem runWindow_finished_err (reads : Nat → Option Content)
    (attemptErr : Nat → Option String) (p : String) (mn mx : Int) :
    ∀ fuel k st err b, b.ctxCanceled = false → b.cfg.maxRetries = 0 →
      (runWindow reads attemptErr p mn mx fuel k st err b).finished = true →
      (runWindow reads attemptErr p mn mx fuel k st err b).err = none := by
  intro fuel
  induction fuel with
  | zero => intro k st err b h1 h2 hfin; simp [runWindow] at hfin
  | succ n ih =>
    intro k st err b h1 h2 hfin
    have hon : b.ongoing = true := ongoing_always b h1 h2
    cases h : attemptErr k with
    | none => simp [runWindow, hon, h]
    | some e =>
      have := ih (k + 1) (updateClosure st (reads k) p mn mx).1 (some e) b.wait h1 h2
      simp only [runWindow, hon, if_true, h] at hfin ⊢
      exact this hfin

/-- Error threading of the window loop: whenever the loop over all
windows exits, the returned `err` is `nil`, regardless of errors
encountered by earlier attempts or earlier windows. -/
theorem updateWindows_finished_err (p : String) (mn mx : Int) (fuel : Nat) :
    ∀ ws st err b, b.ctxCanceled = false → b.cfg.maxRetries = 0 → err = none →
      (updateWindows p mn mx fuel ws st err b).finished = true →
      (updateWindows p mn mx fuel ws st err b).err = none := by
  intro ws
  induction ws with
  | nil => intro st err b h1 h2 herr hfin; simpa [updateWindows] using herr
  | cons w ws ih =>
    intro st err b h1 h2 herr hfin
    have hflag := runWindow_backoff_flags w.1 w.2 p mn mx fuel 0 st err b.reset
    have hflag1 : b.reset.ctxCanceled = false := h1
    have hflag2 : b.reset.cfg.maxRetries = 0 := h2
    by_cases hwin :
        (runWindow w.1 w.2 p mn mx fuel 0 st err b.reset).finished = true
    · have herr2 := runWindow_finished_err w.1 w.2 p mn mx fuel 0 st err b.reset
        hflag1 hflag2 hwin
      simp only [updateWindows, processWindow, hwin, if_true] at hfin ⊢
      exact ih _ _ _ (by rw [hflag.1]; exact hflag1) (by rw [hflag.2]; exact hflag2)
        herr2 hfin
    · simp only [Bool.not_eq_true] at hwin
      simp only [updateWindows, processWindow, hwin, Bool.false_eq_true, if_false] at hfin

/-- Modelled from the spec: the window planner `iterStorePaths` (called
at source line 277) is not among the provided sources. Per spec §3 and
§4.1, a window is a fixed-size calendar-aligned time bucket scoped to
one tenant (a timestamp `t` falls in bucket `t / bucketSize`), and the
planner yields one identifier per distinct bucket the closed range
`[minT, maxT]` overlaps, in ascending time order, without duplicates.
Window identifiers are abstracted as tenant/bucket-index pairs;
timestamps and the bucket size are in the same time unit. -/
def iterStorePaths (tenantID : String) (minT maxT bucket : Nat) : List (String × Nat) :=
  (List.range (maxT / bucket - minT / bucket + 1)).map
    (fun i => (tenantID, minT / bucket + i))

/-- The planner's output is strictly increasing in the bucket index. -/
theorem iterStorePaths_pairwise (tenantID : String) (minT maxT bucket : Nat) :
    (iterStorePaths tenantID minT maxT bucket).Pairwise (fun a b => a.2 < b.2) := by
  unfold iterStorePaths
  refine List.Pairwise.map _ (fun {a b} h => ?_) (List.pairwise_lt_range _)
  simpa using h

/-- Every timestamp of the closed range has its bucket in the planner's
output. -/
theorem iterStorePaths_covers (tenantID : String) (minT maxT bucket : Nat)
    (hle : minT ≤ maxT) (t : Nat) (h1 : minT ≤ t) (h2 : t ≤ maxT) :
    (tenantID, t / bucket) ∈ iterStorePaths tenantID minT maxT bucket := by
  unfold iterStorePaths
  have hlow : minT / bucket ≤ t / bucket := Nat.div_le_div_right h1
  have hhigh : t / bucket ≤ maxT / bucket := Nat.div_le_div_right h2
  refine List.mem_map.mpr ⟨t / bucket - minT / bucket, ?_, ?_⟩
  · exact List.mem_range.mpr (by omega)
  · have : minT / bucket + (t / bucket - minT / bucket) = t / bucket := by omega
    rw [this]

/-- Every entry of the planner's output is the bucket of some timestamp
of the closed range: no bucket outside the range is planned. -/
theorem iterStorePaths_sound (tenantID : String) (minT maxT bucket : Nat)
    (hb : 0 < bucket) (hle : minT ≤ maxT) (w : String × Nat)
    (hw : w ∈ iterStorePaths tenantID minT maxT bucket) :
    ∃ t, minT ≤ t ∧ t ≤ maxT ∧ w = (tenantID, t / bucket) := by
  unfold iterStorePaths at hw
  obtain ⟨i, hi, hfw⟩ := List.mem_map.mp hw
  have hi2 : i < maxT / bucket - minT / bucket + 1 := List.mem_range.mp hi
  have hmono : minT / bucket ≤ maxT / bucket := Nat.div_le_div_right hle
  cases Nat.eq_zero_or_pos i with
  | inl hz =>
    refine ⟨minT, Nat.le_refl minT, hle, ?_⟩
    rw [← hfw, hz, Nat.add_zero]
  | inr hpos =>
    refine ⟨(minT / bucket + i) * bucket, ?_, ?_, ?_⟩
    · have hdm : bucket * (minT / bucket) + minT % bucket = minT :=
        Nat.div_add_mod minT bucket
      have hmod : minT % bucket < bucket := Nat.mod_lt minT hb
      have hdistrib : (minT / bucket + i) * bucket =
          minT / bucket * bucket + i * bucket := Nat.add_mul _ _ _
      have hcomm : bucket * (minT / bucket) = minT / bucket * bucket :=
        Nat.mul_comm _ _
      have hib : bucket ≤ i * bucket := Nat.le_mul_of_pos_left bucket hpos
      omega
    · have hk : minT / bucket + i ≤ maxT / bucket := by omega
      have h1 : (minT / bucket + i) * bucket ≤ maxT / bucket * bucket :=
        Nat.mul_le_mul_right bucket hk
      have h2 : maxT / bucket * bucket ≤ maxT := Nat.div_mul_le_self _ _
      omega
    · rw [← hfw]
      have : (minT / bucket + i) * bucket / bucket = minT / bucket + i := by
        rw [Nat.mul_comm]
        exact Nat.mul_div_cancel_left _ hb
      rw [this]

/-- Modelled from the spec (§5, §6): the state of one window's object in
the store — the current object (absent before the first write) and a
generation token that changes on every accepted replace. -/
structure StoreW where
  obj : Option Content
  gen : Nat
deriving DecidableEq, Repr

/-- One `Update` call racing on a window: the registration it carries
(data object path and min/max timestamps in nanoseconds), the read
snapshot of its in-flight attempt (content and generation token), and
whether its replace has been accepted. -/
structure Proc where
  path : String
  mn : Int
  mx : Int
  snap : Option (Option Content × Nat)
  done : Bool
deriving DecidableEq, Repr

/-- The registration record this call encodes (source lines 308-319). -/
def Proc.reg (p : Proc) : Record := encodeRecord p.path p.mn p.mx

/-- The replacement content a call computes from a read snapshot `c`:
exactly what the `GetAndReplace` callback flushes (reset builder, replay
`c`, append the call's registration record). -/
def Proc.write (p : Proc) (c : Option Content) : Content :=
  (updateClosure ⟨builderReset, []⟩ c p.path p.mn p.mx).2

/-- Two `Update` calls racing on the same window, with the window's
store state. -/
structure Sys where
  store : StoreW
  p1 : Proc
  p2 : Proc
deriving DecidableEq, Repr

/-- Modelled from the spec (§5, §6): interleaving semantics of two
concurrent `Update` calls on one window under the store's
compare-and-replace primitive. A call not yet done reads the current
object and generation token; a compare-and-replace with the current
token is accepted atomically (installing the content computed from the
snapshot and bumping the token), while one with a stale token is
refused, the call discarding its computed bytes and retrying from a
fresh read. -/
inductive Step : Sys → Sys → Prop
  | read1 (s : Sys) (hd : s.p1.done = false) (hs : s.p1.snap = none) :
      Step s ⟨s.store, { s.p1 with snap := some (s.store.obj, s.store.gen) }, s.p2⟩
  | read2 (s : Sys) (hd : s.p2.done = false) (hs : s.p2.snap = none) :
      Step s ⟨s.store, s.p1, { s.p2 with snap := some (s.store.obj, s.store.gen) }⟩
  | cas1Accept (s : Sys) (c : Option Content) (g : Nat)
      (hs : s.p1.snap = some (c, g)) (hg : g = s.store.gen) :
      Step s ⟨⟨some (s.p1.write c), s.store.gen + 1⟩,
        { s.p1 with snap := none, done := true }, s.p2⟩
  | cas1Conflict (s : Sys) (c : Option Content) (g : Nat)
      (hs : s.p1.snap = some (c, g)) (hg : g ≠ s.store.gen) :
      Step s ⟨s.store, { s.p1 with snap := none }, s.p2⟩
  | cas2Accept (s : Sys) (c : Option Content) (g : Nat)
      (hs : s.p2.snap = some (c, g)) (hg : g = s.store.gen) :
      Step s ⟨⟨some (s.p2.write c), s.store.gen + 1⟩, s.p1,
        { s.p2 with snap := none, done := true }⟩
  | cas2Conflict (s : Sys) (c : Option Content) (g : Nat)
      (hs : s.p2.snap = some (c, g)) (hg : g ≠ s.store.gen) :
      Step s ⟨s.store, s.p1, { s.p2 with snap := none }⟩

/-- Per-call invariant: a held snapshot's token never exceeds the
current one and, while still current, identifies the current content;
once the call is done, its registration record is in the stored
object. -/
def ProcInv (w : StoreW) (p : Proc) : Prop :=
  (∀ c g, p.snap = some (c, g) → g ≤ w.gen ∧ (g = w.gen → c = w.obj)) ∧
  (p.done = true → p.reg ∈ w.obj.getD [])

/-- System invariant: both calls satisfy their invariant. -/
def SysInv (s : Sys) : Prop :=
  ProcInv s.store s.p1 ∧ ProcInv s.store s.p2

/-- A registration record survives being replayed: its payload line is
already empty, so `readFromExisting` re-appends it unchanged. -/
theorem replayRec_reg (p : Proc) : replayRec p.reg = p.reg := rfl

/-- A record present in a snapshot the store accepted is present in the
written content, and so is the writing call's own record. -/
theorem mem_write_of_mem (p : Proc) (c : Option Content) (r : Record)
    (hline : replayRec r = r) (hr : r ∈ c.getD []) : r ∈ p.write c := by
  rw [Proc.write, updateClosure_out]
  exact List.mem_append_left _ (hline ▸ List.mem_map_of_mem replayRec hr)

/-- The writing call's record is the final element of what it writes. -/
theorem reg_mem_write (p : Proc) (c : Option Content) : p.reg ∈ p.write c := by
  rw [Proc.write, updateClosure_out]
  exact List.mem_append_right _ (List.mem_singleton.mpr rfl)

/-- One interleaving step preserves the system invariant. -/
theorem SysInv_step (s s2 : Sys) (hstep : Step s s2) (hinv : SysInv s) : SysInv s2 := by
  obtain ⟨⟨h1snap, h1done⟩, ⟨h2snap, h2done⟩⟩ := hinv
  cases hstep with
  | read1 hd hs =>
    refine ⟨⟨?_, ?_⟩, ⟨h2snap, h2done⟩⟩
    · intro c g hcg
      dsimp only at hcg ⊢
      simp only [Option.some.injEq, Prod.mk.injEq] at hcg
      obtain ⟨he, hg2⟩ := hcg
      exact ⟨by omega, fun _ => he.symm⟩
    · intro hdone
      exact h1done hdone
  | read2 hd hs =>
    refine ⟨⟨h1snap, h1done⟩, ⟨?_, ?_⟩⟩
    · intro c g hcg
      dsimp only at hcg ⊢
      simp only [Option.some.injEq, Prod.mk.injEq] at hcg
      obtain ⟨he, hg2⟩ := hcg
      exact ⟨by omega, fun _ => he.symm⟩
    · intro hdone
      exact h2done hdone
  | cas1Accept c g hs hg =>
    have hc : c = s.store.obj := (h1snap c g hs).2 hg
    refine ⟨⟨?_, ?_⟩, ⟨?_, ?_⟩⟩
    · intro c2 g2 hcg
      simp at hcg
    · intro _
      simpa using reg_mem_write s.p1 c
    · intro c2 g2 hcg
      dsimp only at hcg ⊢
      obtain ⟨ha, hb⟩ := h2snap c2 g2 hcg
      refine ⟨by omega, fun hgen => ?_⟩
      omega
    · intro hdone
      have hmem := h2done hdone
      simpa using mem_write_of_mem s.p1 c s.p2.reg (replayRec_reg s.p2) (hc ▸ hmem)
  | cas1Conflict c g hs hg =>
    refine ⟨⟨?_, ?_⟩, ⟨h2snap, h2done⟩⟩
    · intro c2 g2 hcg
      simp at hcg
    · intro hdone
      exact h1done hdone
  | cas2Accept c g hs hg =>
    have hc : c = s.store.obj := (h2snap c g hs).2 hg
    refine ⟨⟨?_, ?_⟩, ⟨?_, ?_⟩⟩
    · intro c2 g2 hcg
      dsimp only at hcg ⊢
      obtain ⟨ha, hb⟩ := h1snap c2 g2 hcg
      refine ⟨by omega, fun hgen => ?_⟩
      omega
    · intro hdone
      have hmem := h1done hdone
      simpa using mem_write_of_mem s.p2 c s.p1.reg (replayRec_reg s.p1) (hc ▸ hmem)
    · intro c2 g2 hcg
      simp at hcg
    · intro _
      simpa using reg_mem_write s.p2 c
  | cas2Conflict c g hs hg =>
    refine ⟨⟨h1snap, h1done⟩, ⟨?_, ?_⟩⟩
    · intro c2 g2 hcg
      simp at hcg
    · intro hdone
      exact h2done hdone

/-- The invariant holds along any interleaving. -/
theorem SysInv_steps (s s2 : Sys) (h : Relation.ReflTransGen Step s s2)
    (hinv : SysInv s) : SysInv s2 := by
  induction h with
  | refl => exact hinv
  | tail hab hbc ih => exact SysInv_step _ _ hbc ih

/-- The shared builder/buffer state as left behind by the first `k`
failed attempts of one window: attempt `k` starts from the state attempt
`k - 1` left (`reads j` is the store content the `j`-th attempt read). -/
def iterState (reads : Nat → Option Content) (p : String) (mn mx : Int)
    (st : UpdState) : Nat → UpdState
  | 0 => st
  | k + 1 => (updateClosure (iterState reads p mn mx st k) (reads k) p mn mx).1

/-- The bytes the `k`-th attempt of a window hands to the store. -/
def submission (reads : Nat → Option Content) (p : String) (mn mx : Int)
    (st : UpdState) (k : Nat) : Content :=
  (updateClosure (iterState reads p mn mx st k) (reads k) p mn mx).2

/-- `Updater.Update` including the lazy-init guard at source lines
270-273: if `initBuilder` reports an error the call returns it at once,
otherwise the window loop runs and the call returns its error. -/
def updateFull (newBuilderFails : Bool) (s : InitState)
    (wins : List ((Nat → Option Content) × (Nat → Option String)))
    (p : String) (mn mx : Int) (fuel : Nat) : InitState × Option String :=
  let r := initBuilder newBuilderFails s
  match r.2 with
  | some e => (r.1, some e)
  | none => (r.1, (updateWindows p mn mx fuel wins ⟨builderReset, []⟩ none updaterBackoff).err)

/-- C1: if two `Update` calls race on the same window, each running to
completion under the store's compare-and-replace discipline (stale
generation tokens are refused and retried from a fresh read), then the
final metastore object contains both calls' registration records —
neither is lost, whatever interleaving occurred and whichever call won
any individual attempt. -/
theorem update_race_convergence (s0 s1 : Sys)
    (h1s : s0.p1.snap = none) (h1d : s0.p1.done = false)
    (h2s : s0.p2.snap = none) (h2d : s0.p2.done = false)
    (hsteps : Relation.ReflTransGen Step s0 s1)
    (hd1 : s1.p1.done = true) (hd2 : s1.p2.done = true) :
    s1.p1.reg ∈ s1.store.obj.getD [] ∧ s1.p2.reg ∈ s1.store.obj.getD [] := by
  have hinv0 : SysInv s0 := by
    refine ⟨⟨?_, ?_⟩, ⟨?_, ?_⟩⟩
    · intro c g hcg
      rw [h1s] at hcg
      exact absurd hcg (by simp)
    · intro h
      rw [h1d] at h
      exact absurd h (by simp)
    · intro c g hcg
      rw [h2s] at hcg
      exact absurd hcg (by simp)
    · intro h
      rw [h2d] at h
      exact absurd h (by simp)
  have hinv1 := SysInv_steps s0 s1 hsteps hinv0
  exact ⟨hinv1.1.2 hd1, hinv1.2.2 hd2⟩

/-- Initial state of a concrete race: empty store, two idle calls
registering `obj-1` over nanosecond range [10, 45] and `obj-2` over
[50, 80]. -/
def raceStart : Sys :=
  ⟨⟨none, 0⟩, ⟨"obj-1", 10, 45, none, false⟩, ⟨"obj-2", 50, 80, none, false⟩⟩

/-- Race demo after the first call's read. -/
def race1 : Sys :=
  ⟨⟨none, 0⟩, ⟨"obj-1", 10, 45, some (none, 0), false⟩, ⟨"obj-2", 50, 80, none, false⟩⟩

/-- Race demo after both calls read the empty window (same token). -/
def race2 : Sys :=
  ⟨⟨none, 0⟩, ⟨"obj-1", 10, 45, some (none, 0), false⟩,
    ⟨"obj-2", 50, 80, some (none, 0), false⟩⟩

/-- Race demo after the first call's replace is accepted. -/
def race3 : Sys :=
  ⟨⟨some [encodeRecord "obj-1" 10 45], 1⟩, ⟨"obj-1", 10, 45, none, true⟩,
    ⟨"obj-2", 50, 80, some (none, 0), false⟩⟩

/-- Race demo after the second call's replace is refused (stale token). -/
def race4 : Sys :=
  ⟨⟨some [encodeRecord "obj-1" 10 45], 1⟩, ⟨"obj-1", 10, 45, none, true⟩,
    ⟨"obj-2", 50, 80, none, false⟩⟩

/-- Race demo after the second call re-reads the fresh content. -/
def race5 : Sys :=
  ⟨⟨some [encodeRecord "obj-1" 10 45], 1⟩, ⟨"obj-1", 10, 45, none, true⟩,
    ⟨"obj-2", 50, 80, some (some [encodeRecord "obj-1" 10 45], 1), false⟩⟩

/-- Final state of the concrete race: both records stored, generation
token bumped twice. -/
def raceFinal : Sys :=
  ⟨⟨some [encodeRecord "obj-1" 10 45, encodeRecord "obj-2" 50 80], 2⟩,
    ⟨"obj-1", 10, 45, none, true⟩, ⟨"obj-2", 50, 80, none, true⟩⟩

theorem update_race_convergence_witness :
    raceFinal.p1.reg ∈ raceFinal.store.obj.getD [] ∧
    raceFinal.p2.reg ∈ raceFinal.store.obj.getD [] :=
  update_race_convergence raceStart raceFinal rfl rfl rfl rfl
    (by
      have h1 : Step raceStart race1 := Step.read1 raceStart rfl rfl
      have h2 : Step race1 race2 := Step.read2 race1 rfl rfl
      have h3 : Step race2 race3 := Step.cas1Accept race2 none 0 rfl rfl
      have h4 : Step race3 race4 := Step.cas2Conflict race3 none 0 rfl (by decide)
      have h5 : Step race4 race5 := Step.read2 race4 rfl rfl
      have h6 : Step race5 raceFinal :=
        Step.cas2Accept race5 (some [encodeRecord "obj-1" 10 45]) 1 rfl rfl
      exact Relation.ReflTransGen.head h1 (Relation.ReflTransGen.head h2
        (Relation.ReflTransGen.head h3 (Relation.ReflTransGen.head h4
          (Relation.ReflTransGen.head h5 (Relation.ReflTransGen.single h6))))))
    rfl rfl

/-- C2: a successful attempt that replays an existing metastore object
with N records and encodes one new registration yields an object with
exactly N + 1 records; the first N keep their label fields (including
the reserved start/end/path labels) byte-identical, and the new record
is the encoded registration — whatever state the builder and buffer
held beforehand. -/
theorem replay_appends_exactly_one (st : UpdState) (obj : Content)
    (p : String) (mn mx : Int) :
    ((updateClosure st (some obj) p mn mx).2).length = obj.length + 1 ∧
    (((updateClosure st (some obj) p mn mx).2).take obj.length).map Record.labels =
      obj.map Record.labels ∧
    ((updateClosure st (some obj) p mn mx).2).getLast? = some (encodeRecord p mn mx) := by
  rw [updateClosure_out]
  refine ⟨by simp, ?_, by simp [List.getLast?_concat]⟩
  have hlen : obj.length = (obj.map replayRec).length := (List.length_map obj replayRec).symm
  rw [Option.getD_some, hlen, List.take_left, List.map_map]
  rfl

/-- First window of the C3 scenario: its first attempt fails, its second
succeeds. -/
def c3ErrW1 : Nat → Option String :=
  fun k => if k == 0 then some "failed to get and replace metastore object" else none

/-- Second window of the C3 scenario: it succeeds immediately. -/
def c3ErrW2 : Nat → Option String := fun _ => none

/-- The C3 scenario run: both windows read an absent object. -/
def c3Run : WinRun :=
  updateCall [(fun _ => none, c3ErrW1), (fun _ => none, c3ErrW2)] "obj" 0 1 5

/-- C3 counterexample: an attempt of the first window fails with an
error, every window is attempted, the call returns — and the returned
error is `nil`, not the encountered error: the shared `err` variable is
overwritten by the later successful attempt, so the claim that the call
"returns the last error encountered across all windows" is false at this
input. -/
theorem update_last_error_lost :
    c3ErrW1 0 = some "failed to get and replace metastore object" ∧
    c3Run.finished = true ∧ c3Run.err = none ∧
    c3Run.err ≠ some "failed to get and replace metastore object" :=
  ⟨rfl, rfl, rfl, fun h => Option.noConfusion ((rfl : c3Run.err = none) ▸ h)⟩

/-- C3 amended: `Update` returns the value of the single shared `err`
variable at exit, i.e. the result of the last attempt executed; since
`NewUpdater`'s backoff never exhausts (`MaxRetries` zero, backoff
context never cancelled), a window's loop exits only on success, so
whenever the call returns at all it returns `nil` — earlier windows' and
earlier attempts' errors are overwritten, never surfaced. -/
theorem update_returns_nil_when_it_returns
    (wins : List ((Nat → Option Content) × (Nat → Option String)))
    (p : String) (mn mx : Int) (fuel : Nat)
    (hfin : (updateCall wins p mn mx fuel).finished = true) :
    (updateCall wins p mn mx fuel).err = none :=
  updateWindows_finished_err p mn mx fuel wins ⟨builderReset, []⟩ none
    updaterBackoff rfl rfl rfl hfin

/-- All-success window list used to exercise the amended C3 theorem. -/
def c3OkWins : List ((Nat → Option Content) × (Nat → Option String)) :=
  [(fun _ => none, fun _ => none)]

theorem update_returns_nil_when_it_returns_witness :
    (updateCall c3OkWins "obj" 0 1 1).finished = true ∧
    (updateCall c3OkWins "obj" 0 1 1).err = none :=
  ⟨rfl, update_returns_nil_when_it_returns c3OkWins "obj" 0 1 1 rfl⟩

/-- C4 (against the claim): for a window whose `GetAndReplace` fails on
every attempt, the retry loop is not bounded: under the backoff
`NewUpdater` builds (`MaxRetries` zero and a `context.TODO()` that is
never cancelled) `backoff.Ongoing` is always true, so however many
iterations are unfolded the loop has not terminated — and neither has an
`Update` call on such a window. -/
theorem retry_loop_never_exhausts (reads : Nat → Option Content)
    (p : String) (mn mx : Int) (fuel : Nat) (st : UpdState) :
    (runWindow reads (fun _ => some "failed to get and replace metastore object")
      p mn mx fuel 0 st none updaterBackoff.reset).finished = false ∧
    (updateCall [(reads, fun _ => some "failed to get and replace metastore object")]
      p mn mx fuel).finished = false := by
  constructor
  · exact (runWindow_allFail reads _ p mn mx (fun j => Option.some_ne_none _)
      fuel 0 st none updaterBackoff.reset rfl rfl).1
  · have h := (runWindow_allFail reads (fun _ => some "failed to get and replace metastore object")
      p mn mx (fun j => Option.some_ne_none _) fuel 0 ⟨builderReset, []⟩ none
      updaterBackoff.reset rfl rfl).1
    simp [updateCall, updateWindows, processWindow, h]

/-- C5 (against the claim): when the caller's context is cancelled
during a window's retry loop, every `GetAndReplace` attempt returns the
cancellation error — but the loop does not abort: the backoff was
constructed over `context.TODO()` with no retry limit, so `Ongoing`
ignores the caller's context and the loop keeps retrying, performing one
more backoff wait per unfolded iteration and never returning. -/
theorem cancelled_context_retries_forever (reads : Nat → Option Content)
    (p : String) (mn mx : Int) (fuel : Nat) (st : UpdState) :
    (runWindow reads (fun _ => some "context canceled") p mn mx fuel 0 st none
      updaterBackoff.reset).finished = false ∧
    (runWindow reads (fun _ => some "context canceled") p mn mx fuel 0 st none
      updaterBackoff.reset).backoff.numRetries = fuel := by
  have h := runWindow_allFail reads (fun _ => some "context canceled") p mn mx
    (fun j => Option.some_ne_none _) fuel 0 st none updaterBackoff.reset rfl rfl
  simpa [Backoff.reset, updaterBackoff] using h

/-- C6: no builder state leaks across attempts or windows. The callback
produces the same result whatever builder/buffer state was left by a
prior window or failed attempt; the builder it hands to the encode phase
holds exactly the freshly replayed records plus the one new record (it
was reset before the replay); and after a window is processed the
builder is left reset. -/
theorem builder_reset_discipline (st st2 : UpdState) (existing : Option Content)
    (p : String) (mn mx : Int) (reads : Nat → Option Content)
    (attemptErr : Nat → Option String) (fuel : Nat) (err : Option String)
    (b : Backoff) :
    updateClosure st existing p mn mx = updateClosure st2 existing p mn mx ∧
    (updateClosure st existing p mn mx).1.builder =
      (existing.getD []).map replayRec ++ [encodeRecord p mn mx] ∧
    (processWindow reads attemptErr p mn mx fuel st err b).st.builder = builderReset :=
  ⟨rfl, updateClosure_out st existing p mn mx, rfl⟩

/-- C7: the record encoder is a pure function of the data object path
and the two timestamps: its output is exactly the labelled entry with
the three reserved labels — `__start__` carrying the minimum timestamp
as a base-10 nanosecond integer, `__end__` the maximum, `__path__` the
data object path (in `labels.New` name order) — and an empty payload
line; and it is precisely this record the callback appends last on every
attempt. -/
theorem record_encoder_deterministic (p : String) (mn mx : Int)
    (st : UpdState) (existing : Option Content) :
    encodeRecord p mn mx =
      { labels := [ ⟨labelNameEnd, toString mx⟩, ⟨labelNamePath, p⟩,
          ⟨labelNameStart, toString mn⟩ ], line := "" } ∧
    ((updateClosure st existing p mn mx).2).getLast? = some (encodeRecord p mn mx) := by
  constructor
  · rfl
  · rw [updateClosure_out]
    simp [List.getLast?_concat]

/-- C8: for every tenant and well-formed range, the planner's windows
are in ascending bucket order, duplicate-free, cover every timestamp of
the closed range, contain no bucket the range does not overlap, and the
degenerate range yields exactly one window. -/
theorem window_planner_plan (tenantID : String) (minT maxT bucket : Nat)
    (hb : 0 < bucket) (hle : minT ≤ maxT) :
    (iterStorePaths tenantID minT maxT bucket).Pairwise (fun a b => a.2 < b.2) ∧
    (iterStorePaths tenantID minT maxT bucket).Nodup ∧
    (∀ t, minT ≤ t → t ≤ maxT →
      (tenantID, t / bucket) ∈ iterStorePaths tenantID minT maxT bucket) ∧
    (∀ w ∈ iterStorePaths tenantID minT maxT bucket,
      ∃ t, minT ≤ t ∧ t ≤ maxT ∧ w = (tenantID, t / bucket)) ∧
    (minT = maxT → (iterStorePaths tenantID minT maxT bucket).length = 1) := by
  refine ⟨iterStorePaths_pairwise tenantID minT maxT bucket, ?_, ?_, ?_, ?_⟩
  · exact List.Pairwise.imp
      (fun {a b} h heq => absurd (heq ▸ h) (Nat.lt_irrefl _))
      (iterStorePaths_pairwise tenantID minT maxT bucket)
  · exact fun t h1 h2 => iterStorePaths_covers tenantID minT maxT bucket hle t h1 h2
  · exact fun w hw => iterStorePaths_sound tenantID minT maxT bucket hb hle w hw
  · intro h
    subst h
    simp [iterStorePaths]

theorem window_planner_plan_witness :
    ((0 : Nat) < 3600 ∧ (600 : Nat) ≤ 2700) ∧
    ((iterStorePaths "t1" 600 2700 3600).Pairwise (fun a b => a.2 < b.2) ∧
      (iterStorePaths "t1" 600 2700 3600).Nodup ∧
      (∀ t, 600 ≤ t → t ≤ 2700 →
        ("t1", t / 3600) ∈ iterStorePaths "t1" 600 2700 3600) ∧
      (∀ w ∈ iterStorePaths "t1" 600 2700 3600,
        ∃ t, 600 ≤ t ∧ t ≤ 2700 ∧ w = ("t1", t / 3600)) ∧
      (600 = 2700 → (iterStorePaths "t1" 600 2700 3600).length = 1)) :=
  ⟨⟨by decide, by decide⟩, window_planner_plan "t1" 600 2700 3600 (by decide) (by decide)⟩

/-- C9: no attempt ever submits bytes computed from a stale read. Along
any sequence of attempts of one window, the bytes the `k`-th attempt
hands to the store are a function of that attempt's own fresh read
alone — the replayed current content plus the new record — independent
of the builder/buffer state and of the bytes computed by earlier failed
attempts. -/
theorem attempt_recomputes_from_fresh_read (reads : Nat → Option Content)
    (p : String) (mn mx : Int) (st st2 : UpdState) (k : Nat) :
    submission reads p mn mx st k =
      ((reads k).getD []).map replayRec ++ [encodeRecord p mn mx] ∧
    submission reads p mn mx st k = submission reads p mn mx st2 k := by
  constructor
  · rw [submission, updateClosure_out]
  · rw [submission, updateClosure_out, submission, updateClosure_out]

/-- C10: when the one-time builder initialisation fails on the first
`Update` call, that call returns the initialisation error and no builder
is constructed; but `builderOnce` is already consumed, so on every
subsequent call `initBuilder` returns `nil` with the builder still
unconstructed, and the call proceeds into the window loop regardless. -/
theorem init_failure_not_retried
    (wins : List ((Nat → Option Content) × (Nat → Option String)))
    (p : String) (mn mx : Int) (fuel : Nat) :
    (updateFull true ⟨false, false⟩ wins p mn mx fuel).2 =
      some "creating metastore builder" ∧
    (updateFull true ⟨false, false⟩ wins p mn mx fuel).1 = ⟨true, false⟩ ∧
    (∀ nbf : Bool, ∀ s : InitState, s.onceRan = true → initBuilder nbf s = (s, none)) ∧
    (∀ nbf : Bool, (updateFull nbf ⟨true, false⟩ wins p mn mx fuel).2 =
      (updateWindows p mn mx fuel wins ⟨builderReset, []⟩ none updaterBackoff).err) := by
  refine ⟨rfl, rfl, ?_, ?_⟩
  · intro nbf s h
    simp [initBuilder, h]
  · intro nbf
    rfl

theorem init_failure_not_retried_witness :
    initBuilder true ⟨true, false⟩ = (⟨true, false⟩, none) ∧
    initBuilder false ⟨true, false⟩ = (⟨true, false⟩, none) :=
  ⟨(init_failure_not_retried [] "obj" 0 1 1).2.2.1 true ⟨true, false⟩ rfl,
    (init_failure_not_retried [] "obj" 0 1 1).2.2.1 false ⟨true, false⟩ rfl⟩

end Metastore
